import Mathlib

/-!
Shallow embedding of the `CentroidalMPC` controller of the
bipedal-locomotion-framework repository
(`src/ReducedModelControllers/include/BipedalLocomotion/ReducedModelControllers/CentroidalMPC.h`).

Only the public header is available in the repository snapshot: the pimpl
implementation (`CentroidalMPC.cpp`) is hidden behind the facade.  The public
contract (parameter table of `initialize`, the overloads of `setState`, the
output structure, the validity semantics) is taken from the header; every part
of the behaviour that lives in the hidden implementation is modelled from the
specification, as indicated by the doc comments below.  Real values are
modelled as rationals so that every definition is executable.
-/

namespace CentroidalMPCModel

/-- A 3d vector with rational components, standing for `Eigen::Vector3d`. -/
structure Vec3 where
  x : ℚ
  y : ℚ
  z : ℚ
deriving DecidableEq

namespace Vec3

def zero : Vec3 := ⟨0, 0, 0⟩

def add (a b : Vec3) : Vec3 := ⟨a.x + b.x, a.y + b.y, a.z + b.z⟩

def sub (a b : Vec3) : Vec3 := ⟨a.x - b.x, a.y - b.y, a.z - b.z⟩

def smul (q : ℚ) (a : Vec3) : Vec3 := ⟨q * a.x, q * a.y, q * a.z⟩

def dot (a b : Vec3) : ℚ := a.x * b.x + a.y * b.y + a.z * b.z

def cross (a b : Vec3) : Vec3 :=
  ⟨a.y * b.z - a.z * b.y, a.z * b.x - a.x * b.z, a.x * b.y - a.y * b.x⟩

/-- Component-wise order, used for the bounding-box constraint. -/
def le (a b : Vec3) : Prop := a.x ≤ b.x ∧ a.y ≤ b.y ∧ a.z ≤ b.z

instance : DecidablePred (fun p : Vec3 × Vec3 => le p.1 p.2) := fun _ =>
  inferInstanceAs (Decidable (_ ∧ _ ∧ _))

instance (a b : Vec3) : Decidable (le a b) :=
  inferInstanceAs (Decidable (_ ∧ _ ∧ _))

instance : Add Vec3 := ⟨add⟩

instance : Sub Vec3 := ⟨sub⟩

instance : Zero Vec3 := ⟨zero⟩

instance : SMul ℚ Vec3 := ⟨smul⟩

end Vec3

/-- A 3x3 matrix given by rows, standing for a rotation in the model. -/
structure Mat3 where
  r1 : Vec3
  r2 : Vec3
  r3 : Vec3
deriving DecidableEq

namespace Mat3

def identity : Mat3 := ⟨⟨1, 0, 0⟩, ⟨0, 1, 0⟩, ⟨0, 0, 1⟩⟩

def mulVec (m : Mat3) (v : Vec3) : Vec3 :=
  ⟨m.r1.dot v, m.r2.dot v, m.r3.dot v⟩

def transpose (m : Mat3) : Mat3 :=
  ⟨⟨m.r1.x, m.r2.x, m.r3.x⟩, ⟨m.r1.y, m.r2.y, m.r3.y⟩, ⟨m.r1.z, m.r2.z, m.r3.z⟩⟩

end Mat3

/-- A pose: position and orientation, standing for `manif::SE3d`. -/
structure Pose where
  position : Vec3
  orientation : Mat3
deriving DecidableEq

def defaultPose : Pose := ⟨Vec3.zero, Mat3.identity⟩

/-- A 6d wrench (`Math::Wrenchd`): linear force and torque. -/
structure Wrench where
  force : Vec3
  torque : Vec3
deriving DecidableEq

def zeroWrench : Wrench := ⟨Vec3.zero, Vec3.zero⟩

/-- Modelled from the spec: `CentroidalState` (section 3) — CoM position,
CoM velocity, angular momentum and an optional external wrench that defaults
to zero.  The hidden `Impl` state holding these values is not in the
repository snapshot. -/
structure CentroidalState where
  com : Vec3
  dcom : Vec3
  angularMomentum : Vec3
  externalWrench : Wrench
deriving DecidableEq

/-- One phase of a `Contacts::ContactPhaseList`: a time interval during which
the named contact is active with a fixed nominal pose. -/
structure ContactPhase where
  name : String
  beginTime : ℚ
  endTime : ℚ
  pose : Pose
deriving DecidableEq

/-- Modelled from the spec: `ContactPhaseList` (section 3) — the nominal,
time-ordered schedule of contacts; the class is declared in
`BipedalLocomotion/Contacts/ContactPhaseList.h`, which is not in the
repository snapshot. -/
structure ContactPhaseList where
  phases : List ContactPhase
deriving DecidableEq

/-- One `CONTACT_<i>` geometry group of the `initialize` parameter table
(header lines 86-93): contact name, bounding-box limits expressed in the
contact local frame, and the corner offsets. -/
structure ContactGeometryGroup where
  contact_name : String
  bounding_box_upper_limit : Vec3
  bounding_box_lower_limit : Vec3
  number_of_corners : ℕ
  corners : List Vec3
deriving DecidableEq

/-- A raw `CONTACT_<i>` group as found in the parameter handler: each entry
may be missing. -/
structure RawContactGroup where
  contact_name : Option String
  bounding_box_upper_limit : Option Vec3
  bounding_box_lower_limit : Option Vec3
  number_of_corners : Option ℕ
  corners : List Vec3
deriving DecidableEq

/-- The parameter handler passed to `CentroidalMPC::initialize`, restricted to
the parameters of the header's table (lines 69-93).  `Option` models a
parameter that may be absent from the handler. -/
structure ParameterHandler where
  sampling_time : Option ℚ
  time_horizon : Option ℚ
  number_of_maximum_contacts : Option ℕ
  com_weight : Option (List ℚ)
  contact_position_weight : Option ℚ
  force_rate_of_change_weight : Option (List ℚ)
  angular_momentum_weight : Option ℚ
  contact_force_symmetry_weight : Option ℚ
  linear_solver : Option String
  ipopt_tolerance : Option ℚ
  ipopt_max_iteration : Option ℕ
  solver_verbosity : Option ℕ
  is_warm_start_enabled : Option Bool
  is_cse_enabled : Option Bool
  contactGroups : List RawContactGroup
deriving DecidableEq

/-- The configuration retained after a successful `initialize`, mirroring the
parameter table of the header (lines 69-93). -/
structure Config where
  sampling_time : ℚ
  time_horizon : ℚ
  number_of_maximum_contacts : ℕ
  com_weight : Vec3
  contact_position_weight : ℚ
  force_rate_of_change_weight : Vec3
  angular_momentum_weight : ℚ
  contact_force_symmetry_weight : ℚ
  linear_solver : String
  ipopt_tolerance : ℚ
  ipopt_max_iteration : ℕ
  solver_verbosity : ℕ
  is_warm_start_enabled : Bool
  is_cse_enabled : Bool
  contactGeometries : List ContactGeometryGroup
deriving DecidableEq

/-- Converts a length-3 list of rationals to a `Vec3` (components x, y, z). -/
def vecOfList (l : List ℚ) : Vec3 :=
  ⟨l.getD 0 0, l.getD 1 0, l.getD 2 0⟩

/-- Validity of one raw `CONTACT_<i>` group: every entry of the header's group
table (lines 86-93) is present, the number of supplied corner vectors matches
`number_of_corners`, and — modelled from the spec (section 4.2: a malformed
bound with lower > upper is a construction-time failure) — the bounding-box
lower limit is component-wise at most the upper limit. -/
def rawGroupOk (g : RawContactGroup) : Bool :=
  g.contact_name.isSome && g.bounding_box_upper_limit.isSome
    && g.bounding_box_lower_limit.isSome && g.number_of_corners.isSome
    && decide (g.corners.length = g.number_of_corners.getD 0)
    && decide (Vec3.le (g.bounding_box_lower_limit.getD Vec3.zero)
        (g.bounding_box_upper_limit.getD Vec3.zero))

/-- Elaborates one checked raw group into a `ContactGeometryGroup`. -/
def elabGroup (g : RawContactGroup) : ContactGeometryGroup :=
  { contact_name := g.contact_name.getD ""
    bounding_box_upper_limit := g.bounding_box_upper_limit.getD Vec3.zero
    bounding_box_lower_limit := g.bounding_box_lower_limit.getD Vec3.zero
    number_of_corners := g.number_of_corners.getD 0
    corners := g.corners }

/-- Modelled from the spec: `CentroidalMPC::initialize` (header lines 65-96);
the body lives in the hidden pimpl.  Mandatory parameters follow the header's
table exactly: `sampling_time`, `time_horizon`, `number_of_maximum_contacts`,
`com_weight` (3 entries), `contact_position_weight`,
`force_rate_of_change_weight` (3 entries), `angular_momentum_weight`,
`contact_force_symmetry_weight` and `linear_solver` are all marked
`Mandatory: Yes`, so any of them missing fails the call; `ipopt_tolerance`,
`ipopt_max_iteration`, `solver_verbosity`, `is_warm_start_enabled` and
`is_cse_enabled` are optional with the documented defaults.  One geometry
group per contact is required (`CONTACT_<i>` for `0 ≤ i ≤
number_of_maximum_contacts - 1`), so the number of parsed groups must equal
`number_of_maximum_contacts`; each group must pass `rawGroupOk`.  Returns
`none` on failure. -/
def initializeController (h : ParameterHandler) : Option Config :=
  match h.sampling_time, h.time_horizon, h.number_of_maximum_contacts,
    h.com_weight, h.contact_position_weight, h.force_rate_of_change_weight,
    h.angular_momentum_weight, h.contact_force_symmetry_weight,
    h.linear_solver with
  | some st, some th, some nmax, some cw, some cpw, some frw, some amw,
      some cfsw, some ls =>
    if cw.length = 3 ∧ frw.length = 3 ∧ h.contactGroups.length = nmax
        ∧ h.contactGroups.all rawGroupOk = true then
      some
        { sampling_time := st
          time_horizon := th
          number_of_maximum_contacts := nmax
          com_weight := vecOfList cw
          contact_position_weight := cpw
          force_rate_of_change_weight := vecOfList frw
          angular_momentum_weight := amw
          contact_force_symmetry_weight := cfsw
          linear_solver := ls
          ipopt_tolerance := h.ipopt_tolerance.getD (1 / 100000000)
          ipopt_max_iteration := h.ipopt_max_iteration.getD 3000
          solver_verbosity := h.solver_verbosity.getD 0
          is_warm_start_enabled := h.is_warm_start_enabled.getD false
          is_cse_enabled := h.is_cse_enabled.getD false
          contactGeometries := h.contactGroups.map elabGroup }
    else none
  | _, _, _, _, _, _, _, _, _ => none

/-- The number of horizon knots: `floor(time_horizon / sampling_time)`
(header line 72). -/
def numKnots (cfg : Config) : ℕ :=
  (Rat.floor (cfg.time_horizon / cfg.sampling_time)).toNat

end CentroidalMPCModel

namespace CentroidalMPCModel

/-- Gravity acceleration vector used by the centroidal dynamics (spec
section 8 uses g = 9.81 m/s^2). -/
def gravityVec : Vec3 := ⟨0, 0, 981 / 100⟩

/-- Modelled from the spec: the reference-sample lookup (sections 3 and 6,
`setReferenceTrajectory`) — the sample at knot `k`, holding the last
available sample when the supplied reference is shorter than the horizon. -/
def heldSample (ref : List Vec3) (k : ℕ) : Vec3 :=
  ref.getD (min k (ref.length - 1)) Vec3.zero

/-- Modelled from the spec: the ContactScheduleTracker activation flag
(section 4.1) — a contact is active at time `t` when a phase of the nominal
schedule covers `t`.  The tie-break of section 4.1 (a sample exactly at a
phase boundary belongs to the phase starting there) is realised by the
half-open interval `beginTime ≤ t < endTime`. -/
def phaseActive (cpl : ContactPhaseList) (nm : String) (t : ℚ) : Bool :=
  cpl.phases.any fun p =>
    p.name == nm && decide (p.beginTime ≤ t) && decide (t < p.endTime)

/-- Modelled from the spec: the nominal pose used for regularization
(section 4.1) — the pose of the current or next phase of the contact. -/
def nominalPoseOf (cpl : ContactPhaseList) (nm : String) (t0 : ℚ) : Pose :=
  match cpl.phases.find? (fun p => p.name == nm && decide (t0 < p.endTime)) with
  | some p => p.pose
  | none => defaultPose

/-- Modelled from the spec: the activation instant of the next planned phase
of a contact (section 4.6, timing of `nextPlannedContact`). -/
def nextPhaseStart (cpl : ContactPhaseList) (nm : String) (t0 : ℚ) : ℚ :=
  match cpl.phases.find? (fun p => p.name == nm && decide (t0 < p.beginTime)) with
  | some p => p.beginTime
  | none => t0

/-- Per-cycle data of one configured contact slot: geometry, nominal pose,
per-knot activation, and whether its position is a free decision variable. -/
structure ContactSlot where
  name : String
  corners : List Vec3
  lower : Vec3
  upper : Vec3
  nominalPose : Pose
  acts : List Bool
  adjustable : Bool
deriving DecidableEq

def defaultSlot : ContactSlot :=
  { name := ""
    corners := []
    lower := Vec3.zero
    upper := Vec3.zero
    nominalPose := defaultPose
    acts := []
    adjustable := false }

/-- Modelled from the spec: the ContactScheduleTracker output for one
configured contact (section 4.1).  A contact's position is a free decision
variable in this cycle exactly when an activation transition towards contact
lies within the horizon (an upcoming touchdown): contacts already fully
committed at the start of the horizon are fixed (the spec flags this policy
as an open question in section 9; the model fixes the committed-contacts-
are-pinned reading). -/
def buildSlot (cpl : ContactPhaseList) (t0 dt : ℚ) (N : ℕ)
    (g : ContactGeometryGroup) : ContactSlot :=
  let acts := (List.range N).map fun k => phaseActive cpl g.contact_name (t0 + (k : ℚ) * dt)
  { name := g.contact_name
    corners := g.corners
    lower := g.bounding_box_lower_limit
    upper := g.bounding_box_upper_limit
    nominalPose := nominalPoseOf cpl g.contact_name t0
    acts := acts
    adjustable := (acts.dropWhile id).any id }

/-- A primal solution of the optimization problem (also used for the initial
guess): state trajectory over the knots, per-knot per-slot per-corner forces,
and one adjusted position per contact slot. -/
structure Solution where
  comTraj : List Vec3
  comVel : List Vec3
  angMom : List Vec3
  forces : List (List (List Vec3))
  positions : List Vec3
deriving DecidableEq

/-- Modelled from the spec: the WarmStartManager cold branch (section 4.4) —
the current measured state held constant over the horizon, nominal contact
positions and zero forces. -/
def nominalGuess (st : CentroidalState) (slots : List ContactSlot) (N : ℕ) : Solution :=
  { comTraj := List.replicate N st.com
    comVel := List.replicate N st.dcom
    angMom := List.replicate N st.angularMomentum
    forces := List.replicate N (slots.map fun s => List.replicate s.corners.length Vec3.zero)
    positions := slots.map fun s => s.nominalPose.position }

/-- Modelled from the spec: the WarmStartManager warm branch (section 4.4) —
the previous solution shifted one step, extended at the new tail with the
most recent state/reference (the reference sample at the new final knot for
the tracked quantities, the most recent solved value for the others). -/
def shiftedGuess (p : Solution) (comTail angTail : Vec3) : Solution :=
  { comTraj := p.comTraj.tail ++ [comTail]
    comVel := p.comVel.tail ++ [p.comVel.getLastD Vec3.zero]
    angMom := p.angMom.tail ++ [angTail]
    forces := p.forces.tail ++ [p.forces.getLastD []]
    positions := p.positions }

/-- Modelled from the spec: the WarmStartManager (section 4.4) — the initial
guess supplied to the solver for this cycle. -/
def warmStartGuess (cfg : Config) (prev : Option Solution) (st : CentroidalState)
    (refCom refAng : List Vec3) (slots : List ContactSlot) (N : ℕ) : Solution :=
  if cfg.is_warm_start_enabled then
    match prev with
    | some p => shiftedGuess p (heldSample refCom (N - 1)) (heldSample refAng (N - 1))
    | none => nominalGuess st slots N
  else nominalGuess st slots N

/-- The per-cycle optimization problem handed to the solver: horizon data,
tracking targets, contact slots and the initial guess. -/
structure Problem where
  N : ℕ
  dt : ℚ
  mass : ℚ
  state : CentroidalState
  comTargets : List Vec3
  angTargets : List Vec3
  slots : List ContactSlot
  guess : Solution
deriving DecidableEq

/-- Modelled from the spec: the per-cycle problem assembly (sections 4.1-4.4)
— schedule analysis, tracking targets (last reference sample held past the
supplied length), and the warm-start initial guess.  The robot mass is not a
parameter of the header's table; it is supplied at construction of the
controller in this model. -/
def buildProblem (cfg : Config) (cpl : ContactPhaseList) (st : CentroidalState)
    (refCom refAng : List Vec3) (t0 : ℚ) (mass : ℚ) (prev : Option Solution) : Problem :=
  let N := numKnots cfg
  let slots := cfg.contactGeometries.map (buildSlot cpl t0 cfg.sampling_time N)
  { N := N
    dt := cfg.sampling_time
    mass := mass
    state := st
    comTargets := (List.range N).map (heldSample refCom)
    angTargets := (List.range N).map (heldSample refAng)
    slots := slots
    guess := warmStartGuess cfg prev st refCom refAng slots N }

def slotAt (prob : Problem) (i : ℕ) : ContactSlot := prob.slots.getD i defaultSlot

def activeAt (prob : Problem) (k i : ℕ) : Bool := (slotAt prob i).acts.getD k false

def comAt (sol : Solution) (k : ℕ) : Vec3 := sol.comTraj.getD k Vec3.zero

def velAt (sol : Solution) (k : ℕ) : Vec3 := sol.comVel.getD k Vec3.zero

def angAt (sol : Solution) (k : ℕ) : Vec3 := sol.angMom.getD k Vec3.zero

def forcesAt (sol : Solution) (k i : ℕ) : List Vec3 := (sol.forces.getD k []).getD i []

def forceAt (sol : Solution) (k i j : ℕ) : Vec3 := (forcesAt sol k i).getD j Vec3.zero

def posAt (sol : Solution) (i : ℕ) : Vec3 := sol.positions.getD i Vec3.zero

def sumForces (l : List Vec3) : Vec3 := l.foldl Vec3.add Vec3.zero

/-- The wrench the OutputDecoder reports for slot `i` at knot `k`: the
aggregate of the corner forces (spec section 4.6). -/
def decodedWrench (sol : Solution) (k i : ℕ) : Vec3 := sumForces (forcesAt sol k i)

/-- World position of corner `j` of a slot given the (solved) contact
position. -/
def cornerWorld (s : ContactSlot) (contactPos : Vec3) (j : ℕ) : Vec3 :=
  contactPos + s.nominalPose.orientation.mulVec (s.corners.getD j Vec3.zero)

/-- A point expressed in the contact local frame relative to the contact's
nominal pose. -/
def localOffset (pose : Pose) (p : Vec3) : Vec3 :=
  pose.orientation.transpose.mulVec (p - pose.position)

/-- Shape conformance of a solution with the decision-variable layout. -/
def lengthsOk (prob : Problem) (sol : Solution) : Bool :=
  decide (sol.comTraj.length = prob.N) && decide (sol.comVel.length = prob.N)
    && decide (sol.angMom.length = prob.N)
    && decide (sol.forces.length = prob.N)
    && ((List.range prob.N).all fun k =>
         decide ((sol.forces.getD k []).length = prob.slots.length)
           && (List.range prob.slots.length).all fun i =>
                decide ((forcesAt sol k i).length = (slotAt prob i).corners.length))
    && decide (sol.positions.length = prob.slots.length)

/-- The first knot of the trajectory coincides with the measured state. -/
def initialOk (prob : Problem) (sol : Solution) : Bool :=
  decide (prob.N = 0)
    || (decide (comAt sol 0 = prob.state.com)
        && decide (velAt sol 0 = prob.state.dcom)
        && decide (angAt sol 0 = prob.state.angularMomentum))

/-- Net contact force at knot `k` over the active contacts. -/
def knotForce (prob : Problem) (sol : Solution) (k : ℕ) : Vec3 :=
  sumForces ((List.range prob.slots.length).map fun i =>
    if activeAt prob k i then decodedWrench sol k i else Vec3.zero)

/-- Angular-momentum rate at knot `k`: sum over active contacts of
(corner position − CoM) cross corner force (spec section 4.2). -/
def knotTorque (prob : Problem) (sol : Solution) (k : ℕ) : Vec3 :=
  sumForces ((List.range prob.slots.length).map fun i =>
    if activeAt prob k i then
      sumForces ((List.range (slotAt prob i).corners.length).map fun j =>
        Vec3.cross (cornerWorld (slotAt prob i) (posAt sol i) j - comAt sol k)
          (forceAt sol k i j))
    else Vec3.zero)

/-- Modelled from the spec: the dynamics equality constraints (section 4.2)
— explicit Euler integration linking consecutive knots: velocity integrates
position, net force over mass minus gravity (plus the external wrench)
integrates velocity, the contact torques integrate angular momentum. -/
def dynOk (prob : Problem) (sol : Solution) : Bool :=
  (List.range (prob.N - 1)).all fun k =>
    decide (comAt sol (k + 1) = comAt sol k + Vec3.smul prob.dt (velAt sol k))
      && decide (velAt sol (k + 1) = velAt sol k + Vec3.smul prob.dt
           (Vec3.smul (1 / prob.mass)
              (knotForce prob sol k + prob.state.externalWrench.force) - gravityVec))
      && decide (angAt sol (k + 1) = angAt sol k + Vec3.smul prob.dt
           (knotTorque prob sol k + prob.state.externalWrench.torque))

/-- Modelled from the spec: unilaterality and the linearized friction cone
(section 4.2).  The facet policy is a solver-configuration detail per the
spec; the model fixes a four-facet pyramid with unit friction coefficient. -/
def frictionOk (prob : Problem) (sol : Solution) : Bool :=
  (List.range prob.N).all fun k =>
    (List.range prob.slots.length).all fun i =>
      (List.range (slotAt prob i).corners.length).all fun j =>
        decide (0 ≤ (forceAt sol k i j).z)
          && decide ((forceAt sol k i j).x ≤ (forceAt sol k i j).z)
          && decide (-(forceAt sol k i j).z ≤ (forceAt sol k i j).x)
          && decide ((forceAt sol k i j).y ≤ (forceAt sol k i j).z)
          && decide (-(forceAt sol k i j).z ≤ (forceAt sol k i j).y)

/-- Modelled from the spec: the inactivity constraint (section 4.2) — all
force components of an inactive contact at a knot are zero. -/
def inactivityOk (prob : Problem) (sol : Solution) : Bool :=
  (List.range prob.N).all fun k =>
    (List.range prob.slots.length).all fun i =>
      activeAt prob k i || (forcesAt sol k i).all fun f => decide (f = Vec3.zero)

/-- Modelled from the spec: the admissible-position constraint (sections 4.2
and 4.1) — an adjustable contact's position, expressed relative to its
nominal pose in the contact local frame, lies within the bounding box; a
committed contact is pinned to its nominal position. -/
def positionsOk (prob : Problem) (sol : Solution) : Bool :=
  (List.range prob.slots.length).all fun i =>
    if (slotAt prob i).adjustable then
      decide (Vec3.le (slotAt prob i).lower
          (localOffset (slotAt prob i).nominalPose (posAt sol i)))
        && decide (Vec3.le (localOffset (slotAt prob i).nominalPose (posAt sol i))
            (slotAt prob i).upper)
    else decide (posAt sol i = (slotAt prob i).nominalPose.position)

/-- Modelled from the spec: feasibility of a primal solution for the
assembled problem (section 4.5 — a successful solve returns a solution of
the constrained problem; the solver itself is an external black box). -/
def checkSolution (prob : Problem) (sol : Solution) : Bool :=
  lengthsOk prob sol && initialOk prob sol && dynOk prob sol
    && frictionOk prob sol && inactivityOk prob sol && positionsOk prob sol

end CentroidalMPCModel

namespace CentroidalMPCModel

/-- One corner of a discrete geometry contact: offset in the foot frame and
the force applied there (`Contacts::DiscreteGeometryContact`, declared
outside the snapshot). -/
structure ContactCorner where
  position : Vec3
  force : Vec3
deriving DecidableEq

/-- `Contacts::DiscreteGeometryContact`: activation and per-corner forces
for the current cycle (spec section 3). -/
structure DiscreteGeometryContact where
  pose : Pose
  corners : List ContactCorner
  isContactActive : Bool
deriving DecidableEq

/-- `Contacts::PlannedContact`: the next adjusted pose and timing of a
contact (spec section 3). -/
structure PlannedContact where
  pose : Pose
  activationTime : ℚ
deriving DecidableEq

/-- `CentroidalMPCOutput` (header lines 30-35): contact map, next planned
contact map and the CoM trajectory over the horizon.  The `std::map`s are
modelled as association lists. -/
structure CentroidalMPCOutput where
  contacts : List (String × DiscreteGeometryContact)
  nextPlannedContact : List (String × PlannedContact)
  comTrajectory : List Vec3
deriving DecidableEq

/-- Decoded contact entry for slot `i`: solved pose and the corner forces of
the current knot (spec section 4.6). -/
def decodeContact (prob : Problem) (sol : Solution) (i : ℕ) :
    String × DiscreteGeometryContact :=
  ((slotAt prob i).name,
    { pose := { position := posAt sol i
                orientation := (slotAt prob i).nominalPose.orientation }
      corners := (List.range (slotAt prob i).corners.length).map fun j =>
        { position := (slotAt prob i).corners.getD j Vec3.zero
          force := forceAt sol 0 i j }
      isContactActive := activeAt prob 0 i })

/-- Modelled from the spec: the OutputDecoder (section 4.6) — aggregates the
corner forces of the current knot per contact, emits the solved pose/time as
`nextPlannedContact` for each slot whose position was a free variable in this
cycle, and decodes the full CoM trajectory across the horizon. -/
def decodeOutput (cpl : ContactPhaseList) (t0 : ℚ) (prob : Problem)
    (sol : Solution) : CentroidalMPCOutput :=
  { contacts := (List.range prob.slots.length).map (decodeContact prob sol)
    nextPlannedContact := (List.range prob.slots.length).filterMap fun i =>
      if (slotAt prob i).adjustable then
        some ((slotAt prob i).name,
          { pose := { position := posAt sol i
                      orientation := (slotAt prob i).nominalPose.orientation }
            activationTime := nextPhaseStart cpl (slotAt prob i).name t0 })
      else none
    comTrajectory := sol.comTraj }

/-- The controller state behind the `CentroidalMPC` facade, modelled from the
spec (sections 3 lifecycle and 5): configuration fixed by `initialize`,
schedule and measured state re-suppliable, the warm-start cache, the owned
output and its validity flag. -/
structure MPC where
  config : Option Config
  contactPhaseList : Option ContactPhaseList
  currentState : Option CentroidalState
  refCom : List Vec3
  refAng : List Vec3
  prevSolution : Option Solution
  output : CentroidalMPCOutput
  outputValid : Bool
  currentTime : ℚ
  mass : ℚ
deriving DecidableEq

def emptyOutput : CentroidalMPCOutput :=
  { contacts := [], nextPlannedContact := [], comTrajectory := [] }

/-- A freshly constructed controller: unconfigured, invalid output.  The
robot mass is fixed at construction in this model (it is not part of the
header's parameter table). -/
def initialMPC (mass : ℚ) : MPC :=
  { config := none
    contactPhaseList := none
    currentState := none
    refCom := []
    refAng := []
    prevSolution := none
    output := emptyOutput
    outputValid := false
    currentTime := 0
    mass := mass }

/-- `CentroidalMPC::initialize` acting on the controller state: stores the
parsed configuration on success; on failure the controller stays
unconfigured (spec section 7: a ConfigurationError is fatal until
reconfigured).  Either way a fresh (re)initialization discards the schedule,
the pending state and the output validity. -/
def mpcInitializeCall (m : MPC) (h : ParameterHandler) : Bool × MPC :=
  match initializeController h with
  | some cfg =>
    (true, { m with config := some cfg
                    contactPhaseList := none
                    currentState := none
                    outputValid := false })
  | none =>
    (false, { m with config := none
                     contactPhaseList := none
                     currentState := none
                     outputValid := false })

/-- Modelled from the spec: the ScheduleError check of
`setContactPhaseList` (section 7) — every contact named by the schedule must
be present in the configuration. -/
def scheduleOk (cfg : Config) (cpl : ContactPhaseList) : Bool :=
  cpl.phases.all fun p => cfg.contactGeometries.any fun g => g.contact_name == p.name

/-- `CentroidalMPC::setContactPhaseList` (header lines 99-105): stores the
nominal schedule; fails before initialization or on a ScheduleError, leaving
the previous schedule in place. -/
def setContactPhaseList (m : MPC) (cpl : ContactPhaseList) : Bool × MPC :=
  match m.config with
  | some cfg =>
    if scheduleOk cfg cpl then (true, { m with contactPhaseList := some cpl })
    else (false, m)
  | none => (false, m)

/-- `CentroidalMPC::setState` three-argument overload (header lines
107-119): the external wrench is assumed to be zero. -/
def setState (m : MPC) (com dcom angularMomentum : Vec3) : Bool × MPC :=
  (true, { m with currentState := some ⟨com, dcom, angularMomentum, zeroWrench⟩ })

/-- `CentroidalMPC::setState` four-argument overload (header lines 121-135):
the supplied external wrench is applied at the CoM. -/
def setStateWithWrench (m : MPC) (com dcom angularMomentum : Vec3)
    (externalWrench : Wrench) : Bool × MPC :=
  (true, { m with currentState := some ⟨com, dcom, angularMomentum, externalWrench⟩ })

/-- `CentroidalMPC::setReferenceTrajectory` (header lines 137-150): stores
the tracking targets; an empty trajectory has no sample to hold over the
horizon and is rejected. -/
def setReferenceTrajectory (m : MPC) (com angularMomentum : List Vec3) : Bool × MPC :=
  if com.isEmpty || angularMomentum.isEmpty then (false, m)
  else (true, { m with refCom := com, refAng := angularMomentum })

/-- The problem the controller would assemble in its current state, when all
prerequisites are available. -/
def problemOf (m : MPC) : Option Problem :=
  match m.config, m.contactPhaseList, m.currentState with
  | some cfg, some cpl, some st =>
    some (buildProblem cfg cpl st m.refCom m.refAng m.currentTime m.mass m.prevSolution)
  | _, _, _ => none

/-- Modelled from the spec: `CentroidalMPC::advance` (header lines 164-168,
spec sections 4.5-4.6 and 7).  The external solver is a black box; it is
modelled as an oracle argument whose successful outcome is a primal solution,
which — per the solver contract — must be feasible for the assembled problem
(`checkSolution`).  Prerequisites (configuration, schedule, measured state)
missing, a solver failure, or an infeasible oracle outcome fail the call: the
validity flag is cleared and the previously published output is left
untouched.  On success the output is decoded and published, the solution is
cached for warm starting and the receding horizon moves one sampling period.
Every `advance` call ends the cycle, so the measured state must be supplied
again before the next cycle (spec section 3: set once per cycle). -/
def advance (m : MPC) (oracle : Option Solution) : Bool × MPC :=
  match m.config, m.contactPhaseList, m.currentState with
  | some cfg, some cpl, some st =>
    match oracle with
    | some sol =>
      if checkSolution (buildProblem cfg cpl st m.refCom m.refAng m.currentTime m.mass m.prevSolution) sol then
        (true, { m with
          output := decodeOutput cpl m.currentTime
            (buildProblem cfg cpl st m.refCom m.refAng m.currentTime m.mass m.prevSolution) sol
          outputValid := true
          prevSolution := some sol
          currentState := none
          currentTime := m.currentTime + cfg.sampling_time })
      else (false, { m with outputValid := false, currentState := none })
    | none => (false, { m with outputValid := false, currentState := none })
  | _, _, _ => (false, { m with outputValid := false, currentState := none })

/-- `CentroidalMPC::isOutputValid` (header lines 158-162). -/
def isOutputValid (m : MPC) : Bool := m.outputValid

/-- `CentroidalMPC::getOutput` (header lines 152-156). -/
def getOutput (m : MPC) : CentroidalMPCOutput := m.output

/-- One call of the public interface, for reasoning about call sequences. -/
inductive MPCCall where
  | callInit (h : ParameterHandler)
  | callSetPhaseList (cpl : ContactPhaseList)
  | callSetState (com dcom angularMomentum : Vec3)
  | callSetStateWrench (com dcom angularMomentum : Vec3) (w : Wrench)
  | callSetRef (com angularMomentum : List Vec3)
  | callAdvance (oracle : Option Solution)
deriving DecidableEq

/-- The controller state after one public call (the returned status is
dropped; failures leave their documented traces in the state). -/
def stepCall (m : MPC) : MPCCall → MPC
  | .callInit h => (mpcInitializeCall m h).2
  | .callSetPhaseList cpl => (setContactPhaseList m cpl).2
  | .callSetState c d a => (setState m c d a).2
  | .callSetStateWrench c d a w => (setStateWithWrench m c d a w).2
  | .callSetRef c a => (setReferenceTrajectory m c a).2
  | .callAdvance oracle => (advance m oracle).2

/-- The controller state after a sequence of public calls. -/
def runCalls (m : MPC) (cs : List MPCCall) : MPC := cs.foldl stepCall m

/-- Trace flag: whether `setContactPhaseList` has been called since the most
recent `initialize` (or since construction when no `initialize` occurs). -/
def phaseFlagStep (b : Bool) : MPCCall → Bool
  | .callInit _ => false
  | .callSetPhaseList _ => true
  | _ => b

def phaseListCalledSinceInit (cs : List MPCCall) : Bool := cs.foldl phaseFlagStep false

/-- Trace flag: whether `setState` has been called in the current cycle, the
cycles being delimited by `advance` calls (and resets by `initialize`). -/
def stateFlagStep (b : Bool) : MPCCall → Bool
  | .callInit _ => false
  | .callAdvance _ => false
  | .callSetState _ _ _ => true
  | .callSetStateWrench _ _ _ _ => true
  | _ => b

def stateSetThisCycle (cs : List MPCCall) : Bool := cs.foldl stateFlagStep false

end CentroidalMPCModel

namespace CentroidalMPCModel

/-- Witness scenario: a complete parameter handler for a biped with two
one-corner contacts, unit sampling time and a two-knot horizon. -/
def wHandler : ParameterHandler :=
  { sampling_time := some 1
    time_horizon := some 2
    number_of_maximum_contacts := some 2
    com_weight := some [1, 1, 1]
    contact_position_weight := some 1
    force_rate_of_change_weight := some [1, 1, 1]
    angular_momentum_weight := some 1
    contact_force_symmetry_weight := some 1
    linear_solver := some "mumps"
    ipopt_tolerance := none
    ipopt_max_iteration := none
    solver_verbosity := none
    is_warm_start_enabled := none
    is_cse_enabled := none
    contactGroups :=
      [ { contact_name := some "left"
          bounding_box_upper_limit := some ⟨1, 1, 1⟩
          bounding_box_lower_limit := some ⟨-1, -1, -1⟩
          number_of_corners := some 1
          corners := [Vec3.zero] },
        { contact_name := some "right"
          bounding_box_upper_limit := some ⟨1, 1, 1⟩
          bounding_box_lower_limit := some ⟨-1, -1, -1⟩
          number_of_corners := some 1
          corners := [Vec3.zero] } ] }

/-- Witness scenario: left in contact over the whole horizon, right touching
down at the second knot (so the right contact's position is a free decision
variable of this cycle). -/
def wCPL : ContactPhaseList :=
  { phases :=
      [ { name := "left", beginTime := 0, endTime := 10, pose := defaultPose },
        { name := "right", beginTime := 1, endTime := 10, pose := defaultPose } ] }

/-- Witness scenario: the call sequence preparing one cycle. -/
def wCalls : List MPCCall :=
  [ MPCCall.callInit wHandler,
    MPCCall.callSetPhaseList wCPL,
    MPCCall.callSetRef [⟨0, 0, 1⟩] [Vec3.zero],
    MPCCall.callSetState ⟨0, 0, 1⟩ Vec3.zero Vec3.zero ]

/-- Witness scenario: the controller ready for `advance`. -/
def wMPC : MPC := runCalls (initialMPC 30) wCalls

/-- Witness scenario: a feasible primal solution for the assembled problem —
zero contact forces (free fall), contacts at their nominal positions. -/
def wSol : Solution :=
  { comTraj := [⟨0, 0, 1⟩, ⟨0, 0, 1⟩]
    comVel := [Vec3.zero, ⟨0, 0, -981 / 100⟩]
    angMom := [Vec3.zero, Vec3.zero]
    forces := [[[Vec3.zero], [Vec3.zero]], [[Vec3.zero], [Vec3.zero]]]
    positions := [Vec3.zero, Vec3.zero] }

end CentroidalMPCModel

namespace CentroidalMPCModel

/-- Witness scenario: the measured state supplied before the cycle. -/
def wState : CentroidalState := ⟨⟨0, 0, 1⟩, Vec3.zero, Vec3.zero, zeroWrench⟩

/-- Witness scenario: the configuration produced by `initializeController`
on `wHandler`. -/
def wConfig : Config :=
  { sampling_time := 1
    time_horizon := 2
    number_of_maximum_contacts := 2
    com_weight := ⟨1, 1, 1⟩
    contact_position_weight := 1
    force_rate_of_change_weight := ⟨1, 1, 1⟩
    angular_momentum_weight := 1
    contact_force_symmetry_weight := 1
    linear_solver := "mumps"
    ipopt_tolerance := 1 / 100000000
    ipopt_max_iteration := 3000
    solver_verbosity := 0
    is_warm_start_enabled := false
    is_cse_enabled := false
    contactGeometries := wHandler.contactGroups.map elabGroup }

/-- Witness scenario: the problem assembled by `wMPC` for this cycle. -/
def wProb : Problem :=
  buildProblem wConfig wCPL wState [⟨0, 0, 1⟩] [Vec3.zero] 0 30 none

/-- On every failure path, `advance` only clears the validity flag and the
pending measured state; everything else — the published output included —
is untouched. -/
theorem advance_fail_shape (m : MPC) (oracle : Option Solution)
    (h : (advance m oracle).1 = false) :
    (advance m oracle).2 = { m with outputValid := false, currentState := none } := by
  cases hc : m.config with
  | none => simp [advance, hc]
  | some cfg =>
    cases hp : m.contactPhaseList with
    | none => simp [advance, hc, hp]
    | some cpl =>
      cases hs : m.currentState with
      | none => simp [advance, hc, hp, hs]
      | some st =>
        cases oracle with
        | none => simp [advance, hc, hp, hs]
        | some sol =>
          by_cases hchk : checkSolution
              (buildProblem cfg cpl st m.refCom m.refAng m.currentTime m.mass
                m.prevSolution) sol = true
          · simp [advance, hc, hp, hs, hchk] at h
          · simp [advance, hc, hp, hs, hchk]

/-- Claim C1: after any failed `advance()` call, `isOutputValid()` is false,
and the failed call leaves every field of the previously published
`CentroidalMPCOutput` — `contacts`, `nextPlannedContact`, `comTrajectory` —
unchanged. -/
theorem advance_fail_invalidates_and_preserves_output (m : MPC) (oracle : Option Solution)
    (h : (advance m oracle).1 = false) :
    isOutputValid (advance m oracle).2 = false
      ∧ (advance m oracle).2.output.contacts = m.output.contacts
      ∧ (advance m oracle).2.output.nextPlannedContact = m.output.nextPlannedContact
      ∧ (advance m oracle).2.output.comTrajectory = m.output.comTrajectory := by
  rw [isOutputValid, advance_fail_shape m oracle h]
  exact ⟨rfl, rfl, rfl, rfl⟩

/-- Witness for C1: a fresh controller with no solver outcome fails
`advance` and the (empty) published output is untouched. -/
theorem advance_fail_invalidates_and_preserves_output_witness :
    (advance (initialMPC 1) none).1 = false
      ∧ (isOutputValid (advance (initialMPC 1) none).2 = false
          ∧ (advance (initialMPC 1) none).2.output.contacts = (initialMPC 1).output.contacts
          ∧ (advance (initialMPC 1) none).2.output.nextPlannedContact
              = (initialMPC 1).output.nextPlannedContact
          ∧ (advance (initialMPC 1) none).2.output.comTrajectory
              = (initialMPC 1).output.comTrajectory) :=
  ⟨by decide, advance_fail_invalidates_and_preserves_output (initialMPC 1) none (by decide)⟩

/-- Claim C9: the three-argument `setState` overload is observationally
equivalent to the four-argument overload applied to the zero wrench — the
returned status and controller state coincide, hence so does every
subsequent call sequence, `advance` behaviour and output included. -/
theorem setState_equiv_zero_wrench (m : MPC) (com dcom angularMomentum : Vec3) :
    setState m com dcom angularMomentum
        = setStateWithWrench m com dcom angularMomentum zeroWrench
      ∧ ∀ cs : List MPCCall,
          runCalls (setState m com dcom angularMomentum).2 cs
            = runCalls (setStateWithWrench m com dcom angularMomentum zeroWrench).2 cs :=
  ⟨rfl, fun _ => rfl⟩

end CentroidalMPCModel

namespace CentroidalMPCModel

/-- The witness handler with only `contact_force_symmetry_weight` removed. -/
def wHandlerNoSymmetry : ParameterHandler :=
  { wHandler with contact_force_symmetry_weight := none }

/-- Counterexample for C5: the header's parameter table (lines 76 and 78)
marks `contact_force_symmetry_weight` (and `force_rate_of_change_weight`) as
`Mandatory: Yes`.  On a handler that is fully valid except for the absent
`contact_force_symmetry_weight`, `initialize` fails instead of defaulting the
weight to zero: the very same handler with the weight present succeeds. -/
theorem missing_symmetry_weight_fails_counterexample :
    (initializeController wHandler).isSome = true
      ∧ initializeController wHandlerNoSymmetry = none := by decide

/-- Claim C5 (amended): all cost-weight parameters of the table —
`contact_force_symmetry_weight` among them — are mandatory; a configuration
lacking `contact_force_symmetry_weight` always fails `initialize`, whatever
the remaining parameters are. -/
theorem missing_symmetry_weight_fails_initialize (h : ParameterHandler)
    (hmiss : h.contact_force_symmetry_weight = none) :
    initializeController h = none := by
  unfold initializeController
  rw [hmiss]
  cases h.sampling_time <;> cases h.time_horizon <;>
    cases h.number_of_maximum_contacts <;> cases h.com_weight <;>
    cases h.contact_position_weight <;> cases h.force_rate_of_change_weight <;>
    cases h.angular_momentum_weight <;> rfl

/-- Witness for the amended C5, at the concrete handler of the
counterexample. -/
theorem missing_symmetry_weight_fails_initialize_witness :
    wHandlerNoSymmetry.contact_force_symmetry_weight = none
      ∧ initializeController wHandlerNoSymmetry = none :=
  ⟨by decide, missing_symmetry_weight_fails_initialize wHandlerNoSymmetry (by decide)⟩

/-- Claim C6: `initialize` succeeds only when the number of per-contact
geometry groups equals `number_of_maximum_contacts` and every group is
well-formed: all entries present, bounding-box lower limit component-wise at
most the upper limit, and as many corner vectors as `number_of_corners`;
hence any violation is a construction-time failure. -/
theorem initialize_success_geometry_valid (h : ParameterHandler) (cfg : Config)
    (hs : initializeController h = some cfg) :
    h.contactGroups.length = cfg.number_of_maximum_contacts
      ∧ h.number_of_maximum_contacts = some cfg.number_of_maximum_contacts
      ∧ ∀ g ∈ h.contactGroups, ∃ nm hi lo nc,
          g.contact_name = some nm
            ∧ g.bounding_box_upper_limit = some hi
            ∧ g.bounding_box_lower_limit = some lo
            ∧ g.number_of_corners = some nc
            ∧ Vec3.le lo hi ∧ g.corners.length = nc := by
  unfold initializeController at hs
  split at hs
  case h_2 => exact absurd hs (by simp)
  case h_1 st th nmax cw cpw frw amw cfsw ls hst hth hnmax hcw hcpw hfrw hamw hcfsw hls =>
    split at hs
    case isFalse => exact absurd hs (by simp)
    case isTrue hcond =>
      obtain ⟨hcw3, hfrw3, hlen, hall⟩ := hcond
      have hnm : cfg.number_of_maximum_contacts = nmax := by
        cases hs.symm
        rfl
      refine ⟨by rw [hnm]; exact hlen, by rw [hnm]; exact hnmax, ?_⟩
      intro g hg
      have hok : rawGroupOk g = true := List.all_eq_true.mp hall g hg
      unfold rawGroupOk at hok
      simp only [Bool.and_eq_true, decide_eq_true_eq, Option.isSome_iff_exists] at hok
      obtain ⟨⟨⟨⟨⟨⟨nm, hnmg⟩, hi, hhig⟩, lo, hlog⟩, nc, hncg⟩, hcorn⟩, hle⟩ := hok
      rw [hlog, hhig] at hle
      rw [hncg] at hcorn
      exact ⟨nm, hi, lo, nc, hnmg, hhig, hlog, hncg, hle, hcorn⟩
end CentroidalMPCModel

namespace CentroidalMPCModel

/-- Witness for C6: the witness handler initializes successfully, so its
geometry groups are all well-formed and as many as
`number_of_maximum_contacts`. -/
theorem initialize_success_geometry_valid_witness :
    initializeController wHandler = some wConfig
      ∧ (wHandler.contactGroups.length = wConfig.number_of_maximum_contacts
          ∧ wHandler.number_of_maximum_contacts = some wConfig.number_of_maximum_contacts
          ∧ ∀ g ∈ wHandler.contactGroups, ∃ nm hi lo nc,
              g.contact_name = some nm
                ∧ g.bounding_box_upper_limit = some hi
                ∧ g.bounding_box_lower_limit = some lo
                ∧ g.number_of_corners = some nc
                ∧ Vec3.le lo hi ∧ g.corners.length = nc) :=
  ⟨by with_unfolding_all rfl,
    initialize_success_geometry_valid wHandler wConfig (by with_unfolding_all rfl)⟩

/-- Projections of `buildProblem`. -/
theorem buildProblem_N (cfg : Config) (cpl : ContactPhaseList) (st : CentroidalState)
    (refCom refAng : List Vec3) (t0 mass : ℚ) (prev : Option Solution) :
    (buildProblem cfg cpl st refCom refAng t0 mass prev).N = numKnots cfg := rfl

theorem buildProblem_comTargets (cfg : Config) (cpl : ContactPhaseList) (st : CentroidalState)
    (refCom refAng : List Vec3) (t0 mass : ℚ) (prev : Option Solution) :
    (buildProblem cfg cpl st refCom refAng t0 mass prev).comTargets
      = (List.range (numKnots cfg)).map (heldSample refCom) := rfl

theorem buildProblem_angTargets (cfg : Config) (cpl : ContactPhaseList) (st : CentroidalState)
    (refCom refAng : List Vec3) (t0 mass : ℚ) (prev : Option Solution) :
    (buildProblem cfg cpl st refCom refAng t0 mass prev).angTargets
      = (List.range (numKnots cfg)).map (heldSample refAng) := rfl

/-- A successful `advance` passed the feasibility check and published the
decoded output of the assembled problem. -/
theorem advance_success_shape (m : MPC) (sol : Solution) (prob : Problem)
    (hprob : problemOf m = some prob)
    (h : (advance m (some sol)).1 = true) :
    checkSolution prob sol = true
      ∧ ∃ cpl, m.contactPhaseList = some cpl
          ∧ (advance m (some sol)).2.output = decodeOutput cpl m.currentTime prob sol := by
  cases hc : m.config with
  | none => rw [problemOf, hc] at hprob; exact absurd hprob (by simp)
  | some cfg =>
    cases hp : m.contactPhaseList with
    | none => rw [problemOf, hc, hp] at hprob; exact absurd hprob (by simp)
    | some cpl =>
      cases hst : m.currentState with
      | none => rw [problemOf, hc, hp, hst] at hprob; exact absurd hprob (by simp)
      | some st =>
        rw [problemOf, hc, hp, hst] at hprob
        have hpe : buildProblem cfg cpl st m.refCom m.refAng m.currentTime m.mass
            m.prevSolution = prob := by
          exact Option.some.inj hprob
        by_cases hchk : checkSolution
            (buildProblem cfg cpl st m.refCom m.refAng m.currentTime m.mass
              m.prevSolution) sol = true
        · rw [hpe] at hchk
          refine ⟨hchk, cpl, rfl, ?_⟩
          rw [← hpe]
          simp [advance, hc, hp, hst, hpe, hchk]
        · exfalso
          simp [advance, hc, hp, hst, hchk] at h

/-- Claim C10: after every successful `advance()`, the `comTrajectory` of the
published output has exactly one CoM sample per horizon knot:
`floor(time_horizon / sampling_time)` entries. -/
theorem advance_success_comTrajectory_length (m : MPC) (sol : Solution) (cfg : Config)
    (prob : Problem) (hcfg : m.config = some cfg) (hprob : problemOf m = some prob)
    (h : (advance m (some sol)).1 = true) :
    (advance m (some sol)).2.output.comTrajectory.length = numKnots cfg := by
  obtain ⟨hchk, cpl, hp, hout⟩ := advance_success_shape m sol prob hprob h
  have hlen : lengthsOk prob sol = true := by
    unfold checkSolution at hchk
    simp only [Bool.and_eq_true] at hchk
    exact hchk.1.1.1.1.1
  have hN : sol.comTraj.length = prob.N := by
    unfold lengthsOk at hlen
    simp only [Bool.and_eq_true, decide_eq_true_eq] at hlen
    exact hlen.1.1.1.1.1
  have hprobN : prob.N = numKnots cfg := by
    cases hpm : m.contactPhaseList with
    | none => rw [hpm] at hp; exact absurd hp (by simp)
    | some cpl2 =>
      cases hst : m.currentState with
      | none => rw [problemOf, hcfg, hpm, hst] at hprob; exact absurd hprob (by simp)
      | some st =>
        rw [problemOf, hcfg, hpm, hst] at hprob
        have := Option.some.inj hprob
        rw [← this, buildProblem_N]
  rw [hout]
  show sol.comTraj.length = numKnots cfg
  rw [hN, hprobN]

set_option maxRecDepth 100000 in
/-- Witness for C10: the witness cycle succeeds and publishes a CoM
trajectory with one sample per knot of the two-knot horizon. -/
theorem advance_success_comTrajectory_length_witness :
    wMPC.config = some wConfig ∧ problemOf wMPC = some wProb
      ∧ (advance wMPC (some wSol)).1 = true
      ∧ (advance wMPC (some wSol)).2.output.comTrajectory.length = numKnots wConfig :=
  ⟨by with_unfolding_all rfl, by with_unfolding_all rfl, by with_unfolding_all rfl,
    advance_success_comTrajectory_length wMPC wSol wConfig wProb (by with_unfolding_all rfl)
      (by with_unfolding_all rfl) (by with_unfolding_all rfl)⟩

end CentroidalMPCModel

namespace CentroidalMPCModel

/-- `getD` of a list whose elements all equal the default. -/
theorem getD_of_all_eq {α : Type} (l : List α) (d : α) (j : ℕ)
    (h : ∀ v ∈ l, v = d) : l.getD j d = d := by
  induction l generalizing j with
  | nil => cases j <;> rfl
  | cons a t ih =>
    cases j with
    | zero => exact h a (List.mem_cons_self a t)
    | succ n => exact ih n fun v hv => h v (List.mem_cons_of_mem a hv)

/-- Adding the zero vector is the identity. -/
theorem Vec3.add_zero_right (a : Vec3) : Vec3.add a Vec3.zero = a := by
  cases a
  simp [Vec3.add, Vec3.zero]

/-- The aggregate of all-zero corner forces is zero. -/
theorem sumForces_eq_zero (l : List Vec3) (h : ∀ v ∈ l, v = Vec3.zero) :
    sumForces l = Vec3.zero := by
  unfold sumForces
  induction l with
  | nil => rfl
  | cons a t ih =>
    rw [List.foldl_cons, h a (List.mem_cons_self a t), Vec3.add_zero_right]
    exact ih fun v hv => h v (List.mem_cons_of_mem a hv)

/-- Feasible solutions satisfy the inactivity constraint. -/
theorem checkSolution_inactivity (prob : Problem) (sol : Solution)
    (h : checkSolution prob sol = true) : inactivityOk prob sol = true := by
  unfold checkSolution at h
  simp only [Bool.and_eq_true] at h
  exact h.1.2

/-- Feasible solutions satisfy the admissible-position constraint. -/
theorem checkSolution_positions (prob : Problem) (sol : Solution)
    (h : checkSolution prob sol = true) : positionsOk prob sol = true := by
  unfold checkSolution at h
  simp only [Bool.and_eq_true] at h
  exact h.2

/-- Claim C2: after a successful `advance()`, for every horizon knot and
every configured contact slot that the nominal schedule marks inactive at
that knot, the decoded wrench for that contact at that knot — the
OutputDecoder aggregate of its corner forces — is exactly zero, and so is
every single corner force. -/
theorem advance_inactive_zero_wrench (m : MPC) (sol : Solution) (prob : Problem)
    (hprob : problemOf m = some prob)
    (h : (advance m (some sol)).1 = true) :
    ∀ k i, k < prob.N → i < prob.slots.length → activeAt prob k i = false →
      decodedWrench sol k i = Vec3.zero ∧ ∀ j, forceAt sol k i j = Vec3.zero := by
  intro k i hk hi hact
  obtain ⟨hchk, -⟩ := advance_success_shape m sol prob hprob h
  have hin : inactivityOk prob sol = true := checkSolution_inactivity prob sol hchk
  simp only [inactivityOk, List.all_eq_true, List.mem_range] at hin
  have h2 := hin k hk i hi
  rw [hact] at h2
  simp only [Bool.false_or, List.all_eq_true, decide_eq_true_eq] at h2
  refine ⟨sumForces_eq_zero _ h2, fun j => ?_⟩
  show (forcesAt sol k i).getD j Vec3.zero = Vec3.zero
  exact getD_of_all_eq _ _ j h2

set_option maxRecDepth 400000 in
/-- Witness for C2: in the witness cycle the right contact is inactive at
the first knot and its decoded wrench there is zero. -/
theorem advance_inactive_zero_wrench_witness :
    problemOf wMPC = some wProb ∧ (advance wMPC (some wSol)).1 = true
      ∧ (0 < wProb.N ∧ 1 < wProb.slots.length ∧ activeAt wProb 0 1 = false)
      ∧ (decodedWrench wSol 0 1 = Vec3.zero ∧ ∀ j, forceAt wSol 0 1 j = Vec3.zero) :=
  ⟨by with_unfolding_all rfl, by with_unfolding_all rfl,
    ⟨by have hN : wProb.N = 2 := by with_unfolding_all rfl
        rw [hN]; decide,
     by have hL : wProb.slots.length = 2 := by with_unfolding_all rfl
        rw [hL]; decide,
     by with_unfolding_all rfl⟩,
    advance_inactive_zero_wrench wMPC wSol wProb (by with_unfolding_all rfl)
      (by with_unfolding_all rfl) 0 1
      (by have hN : wProb.N = 2 := by with_unfolding_all rfl
          rw [hN]; decide)
      (by have hL : wProb.slots.length = 2 := by with_unfolding_all rfl
          rw [hL]; decide)
      (by with_unfolding_all rfl)⟩

end CentroidalMPCModel

namespace CentroidalMPCModel

/-- Claim C3: after a successful `advance()`, every contact slot whose
position was a free decision variable in this cycle has its solved position,
expressed in the contact local frame relative to its nominal pose, inside
the configured bounding box, and exactly that position is emitted in the
published `nextPlannedContact` entry for the contact. -/
theorem advance_adjustable_position_in_box (m : MPC) (sol : Solution) (prob : Problem)
    (hprob : problemOf m = some prob)
    (h : (advance m (some sol)).1 = true) :
    ∀ i, i < prob.slots.length → (slotAt prob i).adjustable = true →
      (Vec3.le (slotAt prob i).lower (localOffset (slotAt prob i).nominalPose (posAt sol i))
          ∧ Vec3.le (localOffset (slotAt prob i).nominalPose (posAt sol i))
              (slotAt prob i).upper)
        ∧ ∃ cpl, m.contactPhaseList = some cpl
            ∧ ((slotAt prob i).name,
                ({ pose := { position := posAt sol i
                             orientation := (slotAt prob i).nominalPose.orientation }
                   activationTime :=
                     nextPhaseStart cpl (slotAt prob i).name m.currentTime } : PlannedContact))
                ∈ (advance m (some sol)).2.output.nextPlannedContact := by
  intro i hi hadj
  obtain ⟨hchk, cpl, hcpl, hout⟩ := advance_success_shape m sol prob hprob h
  have hpos : positionsOk prob sol = true := checkSolution_positions prob sol hchk
  simp only [positionsOk, List.all_eq_true, List.mem_range] at hpos
  have h2 := hpos i hi
  rw [hadj] at h2
  simp only [if_true, Bool.and_eq_true, decide_eq_true_eq] at h2
  refine ⟨h2, cpl, hcpl, ?_⟩
  rw [hout]
  unfold decodeOutput
  apply List.mem_filterMap.mpr
  refine ⟨i, List.mem_range.mpr hi, ?_⟩
  simp only [hadj, if_true]

set_option maxRecDepth 400000 in
/-- Witness for C3: in the witness cycle the right contact (slot 1) is
adjustable; its solved position sits inside the bounding box and is emitted
as `nextPlannedContact`. -/
theorem advance_adjustable_position_in_box_witness :
    problemOf wMPC = some wProb ∧ (advance wMPC (some wSol)).1 = true
      ∧ (slotAt wProb 1).adjustable = true
      ∧ ((Vec3.le (slotAt wProb 1).lower
            (localOffset (slotAt wProb 1).nominalPose (posAt wSol 1))
          ∧ Vec3.le (localOffset (slotAt wProb 1).nominalPose (posAt wSol 1))
              (slotAt wProb 1).upper)
        ∧ ∃ cpl, wMPC.contactPhaseList = some cpl
            ∧ ((slotAt wProb 1).name,
                ({ pose := { position := posAt wSol 1
                             orientation := (slotAt wProb 1).nominalPose.orientation }
                   activationTime :=
                     nextPhaseStart cpl (slotAt wProb 1).name wMPC.currentTime } : PlannedContact))
                ∈ (advance wMPC (some wSol)).2.output.nextPlannedContact) :=
  ⟨by with_unfolding_all rfl, by with_unfolding_all rfl, by with_unfolding_all rfl,
    advance_adjustable_position_in_box wMPC wSol wProb (by with_unfolding_all rfl)
      (by with_unfolding_all rfl) 1
      (by have hL : wProb.slots.length = 2 := by with_unfolding_all rfl
          rw [hL]; decide)
      (by with_unfolding_all rfl)⟩

end CentroidalMPCModel

namespace CentroidalMPCModel

/-- `getD` at the last index is the last element. -/
theorem getD_last {α : Type} (l : List α) (d : α) :
    l.getD (l.length - 1) d = l.getLastD d := by
  induction l with
  | nil => rfl
  | cons a t ih =>
    cases t with
    | nil => rfl
    | cons b t2 =>
      have h1 : (a :: b :: t2).length - 1 = t2.length + 1 := by
        simp [List.length_cons]
      rw [h1]
      have h2 : (b :: t2).length - 1 = t2.length := by simp [List.length_cons]
      rw [h2] at ih
      exact ih

/-- The reference-sample lookup: the supplied sample within range, the last
supplied sample beyond it. -/
theorem heldSample_spec (ref : List Vec3) (k : ℕ) (hne : ref ≠ []) :
    heldSample ref k
      = if k < ref.length then ref.getD k Vec3.zero else ref.getLastD Vec3.zero := by
  have hlen : 0 < ref.length := List.length_pos.mpr hne
  unfold heldSample
  by_cases hk : k < ref.length
  · rw [if_pos hk]
    congr 1
    omega
  · rw [if_neg hk]
    have hmin : min k (ref.length - 1) = ref.length - 1 := by omega
    rw [hmin, getD_last]

/-- `getD` through `map` over `range`. -/
theorem getD_map_range {α : Type} (f : ℕ → α) (n k : ℕ) (d : α) (hk : k < n) :
    ((List.range n).map f).getD k d = f k := by
  rw [List.getD_eq_getElem?_getD, List.getElem?_map, List.getElem?_range hk]
  rfl

/-- Claim C8: the tracking target the assembled problem uses at knot `k` is
the supplied reference sample when `k` is within the supplied length, and
the last supplied sample (held constant) for every knot beyond it — for the
CoM reference and the angular-momentum reference alike. -/
theorem reference_targets_held (cfg : Config) (cpl : ContactPhaseList)
    (st : CentroidalState) (refCom refAng : List Vec3) (t0 mass : ℚ)
    (prev : Option Solution) (k : ℕ) (hk : k < numKnots cfg)
    (hcne : refCom ≠ []) (hane : refAng ≠ []) :
    ((buildProblem cfg cpl st refCom refAng t0 mass prev).comTargets.getD k Vec3.zero
        = if k < refCom.length then refCom.getD k Vec3.zero else refCom.getLastD Vec3.zero)
      ∧ ((buildProblem cfg cpl st refCom refAng t0 mass prev).angTargets.getD k Vec3.zero
        = if k < refAng.length then refAng.getD k Vec3.zero else refAng.getLastD Vec3.zero) := by
  constructor
  · rw [buildProblem_comTargets, getD_map_range (heldSample refCom) (numKnots cfg) k Vec3.zero hk,
      heldSample_spec refCom k hcne]
  · rw [buildProblem_angTargets, getD_map_range (heldSample refAng) (numKnots cfg) k Vec3.zero hk,
      heldSample_spec refAng k hane]

set_option maxRecDepth 100000 in
/-- Witness for C8: the witness reference has a single sample and the
horizon has two knots; at knot 1 the problem's target is the held last
sample. -/
theorem reference_targets_held_witness :
    1 < numKnots wConfig
      ∧ ((buildProblem wConfig wCPL wState [⟨0, 0, 1⟩] [Vec3.zero] 0 30 none).comTargets.getD 1
            Vec3.zero
          = if 1 < [(⟨0, 0, 1⟩ : Vec3)].length then [(⟨0, 0, 1⟩ : Vec3)].getD 1 Vec3.zero
            else [(⟨0, 0, 1⟩ : Vec3)].getLastD Vec3.zero)
      ∧ ((buildProblem wConfig wCPL wState [⟨0, 0, 1⟩] [Vec3.zero] 0 30 none).angTargets.getD 1
            Vec3.zero
          = if 1 < [Vec3.zero].length then [Vec3.zero].getD 1 Vec3.zero
            else [Vec3.zero].getLastD Vec3.zero) :=
  have hk : 1 < numKnots wConfig := by
    have hN : numKnots wConfig = 2 := by with_unfolding_all rfl
    rw [hN]; decide
  ⟨hk,
    reference_targets_held wConfig wCPL wState [⟨0, 0, 1⟩] [Vec3.zero] 0 30 none 1 hk
      (by decide) (by decide)⟩

end CentroidalMPCModel

namespace CentroidalMPCModel

/-- `getD` returns the default or a member of the list. -/
theorem getD_cases {α : Type} (l : List α) (i : ℕ) (d : α) :
    l.getD i d = d ∨ l.getD i d ∈ l := by
  rw [List.getD_eq_getElem?_getD]
  cases h : l[i]? with
  | none => left; rfl
  | some a =>
    right
    have := List.getElem?_mem h
    simpa using this

/-- `getD` of `replicate` inside the range. -/
theorem getD_replicate_lt {α : Type} (v d : α) (N k : ℕ) (hk : k < N) :
    (List.replicate N v).getD k d = v := by
  rw [List.getD_eq_getElem?_getD, List.getElem?_replicate]
  simp [hk]

/-- Indexing the one-step-shifted, tail-extended trajectory inside the
previous solution's range. -/
theorem getD_tail_append {α : Type} (l : List α) (x : α) (k : ℕ) (d : α)
    (hk : k + 1 < l.length) :
    (l.tail ++ [x]).getD k d = l.getD (k + 1) d := by
  cases l with
  | nil => simp at hk
  | cons a t =>
    have hkt : k < t.length := by
      simp only [List.length_cons] at hk
      omega
    show (t ++ [x]).getD k d = t.getD k d
    rw [List.getD_eq_getElem?_getD, List.getD_eq_getElem?_getD, List.getElem?_append]
    simp [hkt]

/-- Indexing the one-step-shifted, tail-extended trajectory at the new final
knot yields the appended tail value. -/
theorem getD_tail_append_last {α : Type} (l : List α) (x : α) (d : α) (N : ℕ)
    (hlen : l.length = N) (hN : 0 < N) :
    (l.tail ++ [x]).getD (N - 1) d = x := by
  cases l with
  | nil =>
    rw [← hlen] at hN
    simp at hN
  | cons a t =>
    have ht : t.length = N - 1 := by
      simp only [List.length_cons] at hlen
      omega
    show (t ++ [x]).getD (N - 1) d = x
    rw [List.getD_eq_getElem?_getD, List.getElem?_append_right (by omega : t.length ≤ N - 1),
      ht, Nat.sub_self]
    rfl

/-- With warm starting enabled and a cached solution, the guess is the
shifted previous solution. -/
theorem warmStartGuess_enabled (cfg : Config) (p : Solution) (st : CentroidalState)
    (refCom refAng : List Vec3) (slots : List ContactSlot) (N : ℕ)
    (hw : cfg.is_warm_start_enabled = true) :
    warmStartGuess cfg (some p) st refCom refAng slots N
      = shiftedGuess p (heldSample refCom (N - 1)) (heldSample refAng (N - 1)) := by
  simp [warmStartGuess, hw]

/-- With warm starting disabled, the guess is the nominal cold start. -/
theorem warmStartGuess_disabled (cfg : Config) (prev : Option Solution)
    (st : CentroidalState) (refCom refAng : List Vec3) (slots : List ContactSlot)
    (N : ℕ) (hw : cfg.is_warm_start_enabled = false) :
    warmStartGuess cfg prev st refCom refAng slots N = nominalGuess st slots N := by
  simp [warmStartGuess, hw]

/-- Every force entry of the cold-start guess is zero. -/
theorem nominalGuess_force_zero (st : CentroidalState) (slots : List ContactSlot)
    (N k i j : ℕ) : forceAt (nominalGuess st slots N) k i j = Vec3.zero := by
  unfold forceAt forcesAt
  rcases getD_cases (nominalGuess st slots N).forces k [] with h | h
  · rw [h]
    rfl
  · simp only [nominalGuess] at h
    have hrep := List.eq_of_mem_replicate h
    rw [show (nominalGuess st slots N).forces.getD k []
        = slots.map (fun s => List.replicate s.corners.length Vec3.zero) from hrep]
    rcases getD_cases (slots.map fun s => List.replicate s.corners.length Vec3.zero) i []
      with h2 | h2
    · rw [h2]
      rfl
    · obtain ⟨s, -, hs⟩ := List.mem_map.mp h2
      rw [← hs]
      rcases getD_cases (List.replicate s.corners.length Vec3.zero) j Vec3.zero with h3 | h3
      · exact h3
      · exact List.eq_of_mem_replicate h3

/-- Claim C4: with `is_warm_start_enabled` true, the initial guess built for
the next cycle is the previous cycle's solution shifted one step — knot `k`
of the guess is knot `k+1` of the previous solution — extended at the new
final knot with the most recent reference sample; with the flag false, the
guess holds the measured state constant over the horizon, places every
contact at its nominal position and sets every force to zero. -/
theorem warm_start_guess_characterization (cfg : Config) (p : Solution)
    (st : CentroidalState) (refCom refAng : List Vec3) (slots : List ContactSlot)
    (N : ℕ) :
    (cfg.is_warm_start_enabled = true →
       (∀ k, k + 1 < p.comTraj.length →
          (warmStartGuess cfg (some p) st refCom refAng slots N).comTraj.getD k Vec3.zero
            = p.comTraj.getD (k + 1) Vec3.zero)
         ∧ (∀ k, k + 1 < p.angMom.length →
            (warmStartGuess cfg (some p) st refCom refAng slots N).angMom.getD k Vec3.zero
              = p.angMom.getD (k + 1) Vec3.zero)
         ∧ (∀ k, k + 1 < p.forces.length →
            (warmStartGuess cfg (some p) st refCom refAng slots N).forces.getD k []
              = p.forces.getD (k + 1) [])
         ∧ (p.comTraj.length = N → 0 < N →
            (warmStartGuess cfg (some p) st refCom refAng slots N).comTraj.getD (N - 1)
                Vec3.zero
              = heldSample refCom (N - 1))
         ∧ (p.angMom.length = N → 0 < N →
            (warmStartGuess cfg (some p) st refCom refAng slots N).angMom.getD (N - 1)
                Vec3.zero
              = heldSample refAng (N - 1)))
      ∧ (cfg.is_warm_start_enabled = false →
         warmStartGuess cfg (some p) st refCom refAng slots N = nominalGuess st slots N
           ∧ (∀ k, k < N →
              (nominalGuess st slots N).comTraj.getD k Vec3.zero = st.com
                ∧ (nominalGuess st slots N).comVel.getD k Vec3.zero = st.dcom
                ∧ (nominalGuess st slots N).angMom.getD k Vec3.zero = st.angularMomentum)
           ∧ (nominalGuess st slots N).positions
               = slots.map (fun s => s.nominalPose.position)
           ∧ (∀ k i j, forceAt (nominalGuess st slots N) k i j = Vec3.zero)) := by
  constructor
  · intro hw
    rw [warmStartGuess_enabled cfg p st refCom refAng slots N hw]
    refine ⟨fun k hk => ?_, fun k hk => ?_, fun k hk => ?_, fun hlen hN => ?_,
      fun hlen hN => ?_⟩
    · exact getD_tail_append p.comTraj _ k Vec3.zero hk
    · exact getD_tail_append p.angMom _ k Vec3.zero hk
    · exact getD_tail_append p.forces _ k [] hk
    · exact getD_tail_append_last p.comTraj _ Vec3.zero N hlen hN
    · exact getD_tail_append_last p.angMom _ Vec3.zero N hlen hN
  · intro hw
    refine ⟨warmStartGuess_disabled cfg (some p) st refCom refAng slots N hw,
      fun k hk => ⟨?_, ?_, ?_⟩, rfl, nominalGuess_force_zero st slots N⟩
    · exact getD_replicate_lt st.com Vec3.zero N k hk
    · exact getD_replicate_lt st.dcom Vec3.zero N k hk
    · exact getD_replicate_lt st.angularMomentum Vec3.zero N k hk

/-- The witness configuration with warm starting enabled. -/
def wConfigWarm : Config := { wConfig with is_warm_start_enabled := true }

/-- Witness for C4: with the warm flag the guess at knot 0 is the previous
solution's knot 1; without it the guess is the nominal cold start. -/
theorem warm_start_guess_characterization_witness :
    wConfigWarm.is_warm_start_enabled = true
      ∧ (warmStartGuess wConfigWarm (some wSol) wState [⟨0, 0, 1⟩] [Vec3.zero]
            wProb.slots 2).comTraj.getD 0 Vec3.zero
          = wSol.comTraj.getD 1 Vec3.zero
      ∧ wConfig.is_warm_start_enabled = false
      ∧ warmStartGuess wConfig (some wSol) wState [⟨0, 0, 1⟩] [Vec3.zero] wProb.slots 2
          = nominalGuess wState wProb.slots 2 :=
  ⟨rfl,
    ((warm_start_guess_characterization wConfigWarm wSol wState [⟨0, 0, 1⟩] [Vec3.zero]
        wProb.slots 2).1 rfl).1 0
      (by have h : wSol.comTraj.length = 2 := rfl
          omega),
    rfl,
    ((warm_start_guess_characterization wConfig wSol wState [⟨0, 0, 1⟩] [Vec3.zero]
        wProb.slots 2).2 rfl).1⟩

end CentroidalMPCModel

namespace CentroidalMPCModel

/-- `advance` preserves the configuration and the stored schedule, and ends
the cycle: the pending measured state is always consumed. -/
theorem advance_state_shape (m : MPC) (o : Option Solution) :
    (advance m o).2.config = m.config
      ∧ (advance m o).2.contactPhaseList = m.contactPhaseList
      ∧ (advance m o).2.currentState = none := by
  cases hc : m.config with
  | none => simp [advance, hc]
  | some cfg =>
    cases hp : m.contactPhaseList with
    | none => simp [advance, hc, hp]
    | some cpl =>
      cases hs : m.currentState with
      | none => simp [advance, hc, hp, hs]
      | some st =>
        cases o with
        | none => simp [advance, hc, hp, hs]
        | some sol =>
          by_cases hchk : checkSolution
              (buildProblem cfg cpl st m.refCom m.refAng m.currentTime m.mass
                m.prevSolution) sol = true
          · simp [advance, hc, hp, hs, hchk]
          · simp [advance, hc, hp, hs, hchk]

/-- `initialize` stores the parse result and discards the schedule and the
pending measured state. -/
theorem mpcInitializeCall_shape (m : MPC) (h : ParameterHandler) :
    (mpcInitializeCall m h).2.config = initializeController h
      ∧ (mpcInitializeCall m h).2.contactPhaseList = none
      ∧ (mpcInitializeCall m h).2.currentState = none := by
  cases hi : initializeController h <;> simp [mpcInitializeCall, hi]

/-- `setContactPhaseList` touches neither the configuration nor the pending
measured state. -/
theorem setContactPhaseList_shape (m : MPC) (cpl : ContactPhaseList) :
    (setContactPhaseList m cpl).2.config = m.config
      ∧ (setContactPhaseList m cpl).2.currentState = m.currentState := by
  cases hc : m.config with
  | none => simp [setContactPhaseList, hc]
  | some cfg =>
    by_cases hok : scheduleOk cfg cpl = true <;> simp [setContactPhaseList, hc, hok]

/-- `setReferenceTrajectory` only touches the stored references. -/
theorem setReferenceTrajectory_shape (m : MPC) (c a : List Vec3) :
    (setReferenceTrajectory m c a).2.config = m.config
      ∧ (setReferenceTrajectory m c a).2.contactPhaseList = m.contactPhaseList
      ∧ (setReferenceTrajectory m c a).2.currentState = m.currentState := by
  by_cases h : (c.isEmpty || a.isEmpty) = true <;> simp [setReferenceTrajectory, h]

/-- If every `initialize` of a call sequence fails, an unconfigured
controller stays unconfigured. -/
theorem runCalls_config_none (cs : List MPCCall) (m : MPC)
    (hm : m.config = none)
    (hcs : ∀ ph, MPCCall.callInit ph ∈ cs → initializeController ph = none) :
    (runCalls m cs).config = none := by
  induction cs generalizing m with
  | nil => exact hm
  | cons c cs ih =>
    show (runCalls (stepCall m c) cs).config = none
    refine ih (stepCall m c) ?_ fun ph hph => hcs ph (List.mem_cons_of_mem c hph)
    cases c with
    | callInit ph =>
      show (mpcInitializeCall m ph).2.config = none
      rw [(mpcInitializeCall_shape m ph).1]
      exact hcs ph (List.mem_cons_self _ _)
    | callSetPhaseList cpl =>
      show (setContactPhaseList m cpl).2.config = none
      rw [(setContactPhaseList_shape m cpl).1]
      exact hm
    | callSetState c1 c2 c3 => exact hm
    | callSetStateWrench c1 c2 c3 w => exact hm
    | callSetRef c1 a1 =>
      show (setReferenceTrajectory m c1 a1).2.config = none
      rw [(setReferenceTrajectory_shape m c1 a1).1]
      exact hm
    | callAdvance o =>
      show (advance m o).2.config = none
      rw [(advance_state_shape m o).1]
      exact hm

/-- If `setContactPhaseList` has not been called since the most recent
`initialize` (tracked by the fold of `phaseFlagStep`), the stored schedule is
absent. -/
theorem runCalls_phaseList_none (cs : List MPCCall) (m : MPC) (b : Bool)
    (hm : b = false → m.contactPhaseList = none)
    (hflag : cs.foldl phaseFlagStep b = false) :
    (runCalls m cs).contactPhaseList = none := by
  induction cs generalizing m b with
  | nil => exact hm hflag
  | cons c cs ih =>
    show (runCalls (stepCall m c) cs).contactPhaseList = none
    refine ih (stepCall m c) (phaseFlagStep b c) ?_ hflag
    intro hb
    cases c with
    | callInit ph => exact (mpcInitializeCall_shape m ph).2.1
    | callSetPhaseList cpl => exact absurd hb (by simp [phaseFlagStep])
    | callSetState c1 c2 c3 => exact hm hb
    | callSetStateWrench c1 c2 c3 w => exact hm hb
    | callSetRef c1 a1 =>
      show (setReferenceTrajectory m c1 a1).2.contactPhaseList = none
      rw [(setReferenceTrajectory_shape m c1 a1).2.1]
      exact hm hb
    | callAdvance o =>
      show (advance m o).2.contactPhaseList = none
      rw [(advance_state_shape m o).2.1]
      exact hm hb

/-- If `setState` has not been called in the current cycle (tracked by the
fold of `stateFlagStep`), no measured state is pending. -/
theorem runCalls_state_none (cs : List MPCCall) (m : MPC) (b : Bool)
    (hm : b = false → m.currentState = none)
    (hflag : cs.foldl stateFlagStep b = false) :
    (runCalls m cs).currentState = none := by
  induction cs generalizing m b with
  | nil => exact hm hflag
  | cons c cs ih =>
    show (runCalls (stepCall m c) cs).currentState = none
    refine ih (stepCall m c) (stateFlagStep b c) ?_ hflag
    intro hb
    cases c with
    | callInit ph => exact (mpcInitializeCall_shape m ph).2.2
    | callSetPhaseList cpl =>
      show (setContactPhaseList m cpl).2.currentState = none
      rw [(setContactPhaseList_shape m cpl).2]
      exact hm hb
    | callSetState c1 c2 c3 => exact absurd hb (by simp [stateFlagStep])
    | callSetStateWrench c1 c2 c3 w => exact absurd hb (by simp [stateFlagStep])
    | callSetRef c1 a1 =>
      show (setReferenceTrajectory m c1 a1).2.currentState = none
      rw [(setReferenceTrajectory_shape m c1 a1).2.2]
      exact hm hb
    | callAdvance o => exact (advance_state_shape m o).2.2

/-- `advance` fails whenever a prerequisite is missing in the controller
state. -/
theorem advance_missing_prerequisite_fails (m : MPC) (o : Option Solution)
    (h : m.config = none ∨ m.contactPhaseList = none ∨ m.currentState = none) :
    (advance m o).1 = false := by
  rcases h with h | h | h
  · simp [advance, h]
  · cases hc : m.config with
    | none => simp [advance, hc]
    | some cfg => simp [advance, hc, h]
  · cases hc : m.config with
    | none => simp [advance, hc]
    | some cfg =>
      cases hp : m.contactPhaseList with
      | none => simp [advance, hc, hp]
      | some cpl => simp [advance, hc, hp, h]

/-- Claim C7: `advance()` never succeeds without its prerequisites.  In any
call sequence from a fresh controller in which no `initialize` succeeded, or
`setContactPhaseList` has not been called since the controller was
(re)initialized, or `setState` has not been called in the current cycle, the
next `advance()` returns false. -/
theorem advance_requires_prerequisites (mass : ℚ) (cs : List MPCCall)
    (oracle : Option Solution)
    (h : (∀ ph, MPCCall.callInit ph ∈ cs → initializeController ph = none)
        ∨ phaseListCalledSinceInit cs = false
        ∨ stateSetThisCycle cs = false) :
    (advance (runCalls (initialMPC mass) cs) oracle).1 = false := by
  apply advance_missing_prerequisite_fails
  rcases h with h | h | h
  · exact Or.inl (runCalls_config_none cs (initialMPC mass) rfl h)
  · exact Or.inr (Or.inl (runCalls_phaseList_none cs (initialMPC mass) false
      (fun _ => rfl) h))
  · exact Or.inr (Or.inr (runCalls_state_none cs (initialMPC mass) false
      (fun _ => rfl) h))

/-- Witness for C7: a successful `initialize` with no subsequent
`setContactPhaseList` leaves `advance` failing. -/
theorem advance_requires_prerequisites_witness :
    phaseListCalledSinceInit [MPCCall.callInit wHandler] = false
      ∧ (advance (runCalls (initialMPC 30) [MPCCall.callInit wHandler]) none).1 = false :=
  ⟨rfl,
    advance_requires_prerequisites 30 [MPCCall.callInit wHandler] none
      (Or.inr (Or.inl rfl))⟩

end CentroidalMPCModel
